import Mathlib

/-!
Shallow embedding of the `clauders` session layer (Rust) for checking the
natural-language specification against the code.

The embedding follows the source files under `src/`:
* `proto/content_block.rs`, `proto/message.rs`, `proto/incoming.rs`,
  `proto/control.rs` — wire envelope data model (`serde_json::Value` is
  modelled by the `Json` inductive; `Map<String, Value>` "extra" fields by
  association lists; `f64` cost fields by `Float`, which no claim inspects);
* `response.rs` — semantic response events and `Response::from_message`;
* `mcp_server.rs` — the in-process tool endpoint;
* `hooks/*.rs` — hook inputs, outputs and their response serialisation
  (callbacks are modelled as pure Lean functions);
* `client.rs` — hook callback-id assignment, `respond_to_tool` idempotency,
  the `receive()` loop (modelled as a function over the list of items the
  transport yields), `handle_mcp_message`, `handle_hook_callback`, and the
  `get_server_info` drain loop;
* `conversation.rs` — `TurnBuilder::send` history bookkeeping.
-/

namespace Clauders

/-- `serde_json::Value`. Numbers that the claims touch are integral (JSON-RPC
error codes, token counts), so the numeric case carries an `Int`. -/
inductive Json where
  | null
  | bool (b : Bool)
  | num (n : Int)
  | str (s : String)
  | arr (elems : List Json)
  | obj (members : List (String × Json))
deriving Inhabited

namespace Json

/-- `Value::get(key)` on an object (`None` on non-objects / missing keys). -/
def get (j : Json) (key : String) : Option Json :=
  match j with
  | .obj members => members.lookup key
  | _ => none

/-- `Value::as_str`. -/
def asStr : Json → Option String
  | .str s => some s
  | _ => none

/-- `Value::as_bool`. -/
def asBool : Json → Option Bool
  | .bool b => some b
  | _ => none

/-- `value["key"]` in read position: missing keys read as `Null`. -/
def index (j : Json) (key : String) : Json :=
  (j.get key).getD .null

end Json

/-! ## Content blocks (`proto/content_block.rs`) -/

/-- `content_block::Text`. -/
structure Text where
  text : String
  extra : List (String × Json) := []

/-- `content_block::ToolUse`. -/
structure ToolUse where
  id : String
  name : String
  input : Json
  extra : List (String × Json) := []

/-- `content_block::ToolResult`. -/
structure ToolResult where
  toolUseId : String
  content : Option Json := none
  isError : Option Bool := none
  extra : List (String × Json) := []

/-- `content_block::Thinking`. -/
structure Thinking where
  thinking : String
  signature : String
  extra : List (String × Json) := []

/-- `content_block::ContentBlock`. -/
inductive ContentBlock where
  | text (t : Text)
  | toolUse (t : ToolUse)
  | toolResult (t : ToolResult)
  | thinking (t : Thinking)

/-! ## Streaming messages (`proto/message.rs`) -/

/-- `message::AssistantError`. -/
inductive AssistantError where
  | authenticationFailed
  | billingError
  | rateLimit
  | invalidRequest
  | serverError
  | unknown
deriving DecidableEq

/-- `message::UserContent`. -/
inductive UserContent where
  | text (s : String)
  | blocks (bs : List ContentBlock)

/-- `message::UserMessageInner`. -/
structure UserMessageInner where
  content : UserContent
  extra : List (String × Json) := []

/-- `message::UserEnvelope`. -/
structure UserEnvelope where
  message : UserMessageInner

/-- `message::AssistantMessageInner`. -/
structure AssistantMessageInner where
  content : List ContentBlock
  model : String
  error : Option AssistantError := none
  extra : List (String × Json) := []

/-- `message::AssistantEnvelope`. -/
structure AssistantEnvelope where
  message : AssistantMessageInner

/-- `message::InitMessage`. -/
structure InitMessage where
  sessionId : Option String := none
  model : Option String := none
  cwd : Option String := none
  extra : List (String × Json) := []

/-- `message::ErrorMessage`. -/
structure ErrorMessage where
  error : String
  extra : List (String × Json) := []

/-- `message::SystemMessage` (tagged by `subtype`). -/
inductive SystemMessage where
  | init (i : InitMessage)
  | error (e : ErrorMessage)

/-- `message::Usage`. -/
structure Usage where
  inputTokens : Option Int := none
  outputTokens : Option Int := none
  totalTokens : Option Int := none
  cacheCreationInputTokens : Option Int := none
  cacheReadInputTokens : Option Int := none
  extra : List (String × Json) := []

/-- `message::ResultMessage`. The `f64` cost is a `Float`; no claim reads it. -/
structure ResultMessage where
  subtype : String
  durationMs : Int := 0
  durationApiMs : Int := 0
  isError : Bool := false
  numTurns : Int := 0
  sessionId : String
  totalCostUsd : Option Float := none
  usage : Option Usage := none
  result : Option String := none
  structuredOutput : Option Json := none
  extra : List (String × Json) := []

/-- `message::Message` (tagged by `type`). -/
inductive Message where
  | user (e : UserEnvelope)
  | assistant (e : AssistantEnvelope)
  | system (s : SystemMessage)
  | result (r : ResultMessage)

/-! ## Semantic response events (`response.rs`)

The Rust wrappers `TextResponse(Text)` etc. are one-field newtypes over the
proto structures, so `Response` here carries the proto payloads directly. -/

/-- `response::ErrorResponse`. -/
inductive ErrorResponse where
  | system (msg : String)
  | assistant (err : AssistantError)
deriving DecidableEq

/-- `response::Response`. -/
inductive Response where
  | text (t : Text)
  | toolUse (t : ToolUse)
  | toolResult (t : ToolResult)
  | thinking (t : Thinking)
  | init (i : InitMessage)
  | error (e : ErrorResponse)
  | complete (r : ResultMessage)

namespace Response

/-- `Response::is_complete`. -/
def isComplete : Response → Bool
  | .complete _ => true
  | _ => false

/-- The per-block arm of the `map` inside `Response::from_message`. -/
def ofBlock : ContentBlock → Response
  | .text t => .text t
  | .toolUse t => .toolUse t
  | .toolResult t => .toolResult t
  | .thinking t => .thinking t

/-- `Response::from_message` (`response.rs`): a user echo yields nothing; an
assistant envelope carrying an error yields one error event, otherwise one
event per content block in block order; a system init/error yields one
init/error event; a result message yields one complete event. -/
def fromMessage : Message → List Response
  | .user _ => []
  | .assistant envelope =>
    match envelope.message.error with
    | some err => [.error (.assistant err)]
    | none => envelope.message.content.map ofBlock
  | .system (.init i) => [.init i]
  | .system (.error e) => [.error (.system e.error)]
  | .result r => [.complete r]

end Response

/-! ## Control protocol (`proto/control.rs`) -/

/-- `control::PermissionMode`. -/
inductive PermissionMode where
  | default
  | acceptEdits
  | plan
  | bypassPermissions
deriving DecidableEq

/-- `control::PermissionUpdate`. -/
structure PermissionUpdate where
  toolName : String
  rule : Option String := none
  extra : List (String × Json) := []

/-- `control::PermissionRequest`. -/
structure PermissionRequest where
  toolName : String
  input : Json
  permissionSuggestions : Option (List PermissionUpdate) := none
  blockedPath : Option String := none
  extra : List (String × Json) := []

/-- `control::InitializeRequest`. -/
structure InitializeRequest where
  hooks : Option (List (String × Json)) := none
  extra : List (String × Json) := []

/-- `control::SetPermissionModeRequest`. -/
structure SetPermissionModeRequest where
  mode : PermissionMode
  extra : List (String × Json) := []

/-- `control::HookCallbackRequest`. -/
structure HookCallbackRequest where
  callbackId : String
  input : Json
  toolUseId : Option String := none
  extra : List (String × Json) := []

/-- `control::McpMessageRequest`. -/
structure McpMessageRequest where
  serverName : String
  message : Json
  extra : List (String × Json) := []

/-- `control::SetModelRequest`. -/
structure SetModelRequest where
  model : String
  extra : List (String × Json) := []

/-- `control::Request` (tagged by `subtype`). -/
inductive CtrlRequest where
  | interrupt
  | canUseTool (r : PermissionRequest)
  | initializeReq (r : InitializeRequest)
  | setPermissionMode (r : SetPermissionModeRequest)
  | hookCallback (r : HookCallbackRequest)
  | mcpMessage (r : McpMessageRequest)
  | setModel (r : SetModelRequest)
  | getServerInfo

/-- `control::ErrorDetail`. -/
structure ErrorDetail where
  code : Int
  message : String
  data : Option Json := none

/-- `control::SuccessResponse`. -/
structure CtrlSuccessResponse where
  requestId : String
  response : Option Json := none
  extra : List (String × Json) := []

/-- `control::ErrorResponse` (the control-protocol one). -/
structure CtrlErrorResponse where
  requestId : String
  error : ErrorDetail
  extra : List (String × Json) := []

/-- `control::Response` (tagged by `subtype`: success or error). -/
inductive CtrlResponse where
  | success (r : CtrlSuccessResponse)
  | error (r : CtrlErrorResponse)

/-- `control::RequestEnvelope` (outbound control request). -/
structure RequestEnvelope where
  msgType : String
  requestId : String
  request : CtrlRequest

/-- `RequestEnvelope::new_with` (the fresh uuid of `new` is a parameter here). -/
def RequestEnvelope.newWith (requestId : String) (request : CtrlRequest) :
    RequestEnvelope :=
  { msgType := "control_request", requestId, request }

/-- `control::ResponseEnvelope` (control response written back to the child). -/
structure ResponseEnvelope where
  msgType : String
  response : CtrlResponse

/-- `ResponseEnvelope::success`. -/
def ResponseEnvelope.success (requestId : String) (response : Option Json) :
    ResponseEnvelope :=
  { msgType := "control_response",
    response := .success { requestId, response } }

/-- `control::ErrorCode::to_i32` for the codes the code uses. -/
def methodNotFoundCode : Int := -32601

/-- `ResponseEnvelope::error`. -/
def ResponseEnvelope.error (requestId : String) (code : Int) (message : String) :
    ResponseEnvelope :=
  { msgType := "control_response",
    response := .error { requestId, error := { code, message } } }

/-- `control::ServerInfo` (camelCase serde; `version` required, rest default). -/
structure ServerInfo where
  version : String
  capabilities : List String := []
  commands : List String := []
  outputStyles : List String := []
  extra : List (String × Json) := []

/-! ## Incoming messages (`proto/incoming.rs`) -/

/-- `incoming::ControlRequestEnvelope`. -/
structure ControlRequestEnvelope where
  requestId : String
  request : CtrlRequest
  extra : List (String × Json) := []

/-- `incoming::ControlResponseEnvelope`. -/
structure ControlResponseEnvelope where
  response : CtrlResponse
  extra : List (String × Json) := []

/-- `incoming::Incoming` (tagged by `type`). -/
inductive Incoming where
  | user (e : UserEnvelope)
  | assistant (e : AssistantEnvelope)
  | system (s : SystemMessage)
  | result (r : ResultMessage)
  | controlRequest (e : ControlRequestEnvelope)
  | controlResponse (e : ControlResponseEnvelope)

namespace Incoming

/-- `Incoming::to_message`. -/
def toMessage : Incoming → Option Message
  | .user u => some (.user u)
  | .assistant a => some (.assistant a)
  | .system s => some (.system s)
  | .result r => some (.result r)
  | _ => none

/-- `Incoming::as_control_request`. -/
def asControlRequest : Incoming → Option ControlRequestEnvelope
  | .controlRequest r => some r
  | _ => none

/-- `Incoming::as_control_response`. -/
def asControlResponse : Incoming → Option ControlResponseEnvelope
  | .controlResponse r => some r
  | _ => none

end Incoming

/-! ## Host error taxonomy (`error.rs`) -/

/-- `error::Error`. Payloads that are foreign error objects (`io::Error`,
`serde_json::Error`) are carried as their display strings. -/
inductive Error where
  | cliNotFound (msg : String)
  | connectionError (msg : String)
  | controlError (requestId : String) (message : String)
  | hookError (callbackId : String) (message : String)
  | io (msg : String)
  | json (msg : String)
  | noSchemaConfigured
  | permissionDenied (toolName : String) (message : String)
  | processError (msg : String)
  | protocolError (msg : String)
  | schemaMismatch (expected : String) (configured : String)
  | timeout (msg : String)
deriving DecidableEq

/-! ## In-process tool endpoint (`mcp_server.rs`, `tool.rs`)

A `Tool`'s handler is a pure function; its `ToolError` failure is carried as
the error's display string (the only use the endpoint makes of it is
`err.to_string()`). -/

/-- `tool::Tool`. -/
structure Tool where
  name : String
  description : String
  inputSchema : Json
  outputSchema : Option Json := none
  handler : Json → Except String Json

/-- `mcp_server::McpServer` (the `tool_map` is derived below rather than
stored, with the same contents as the `HashMap` built in `with_version`). -/
structure McpServer where
  name : String
  version : String
  tools : List Tool

namespace McpServer

/-- The name → index `tool_map` built by `McpServer::with_version`:
`tools.iter().enumerate().map(|(i, t)| (t.name, i)).collect::<HashMap<_,_>>()`.
Collecting into a `HashMap` lets a later duplicate name overwrite an earlier
one, so insertions are modelled by prepending and lookup takes the most
recent insertion. -/
def toolMap (tools : List Tool) : List (String × Nat) :=
  tools.enum.foldl (fun m it => (it.2.name, it.1) :: m) []

/-- `HashMap::get` on the derived `tool_map`. -/
def toolMapGet (s : McpServer) (name : String) : Option Nat :=
  (toolMap s.tools).lookup name

/-- `McpServer::jsonrpc_success`. -/
def jsonrpcSuccess (id : Json) (result : Json) : Json :=
  .obj [("jsonrpc", .str "2.0"), ("id", id), ("result", result)]

/-- `McpServer::jsonrpc_error`. -/
def jsonrpcError (id : Json) (code : Int) (message : String) : Json :=
  .obj [("jsonrpc", .str "2.0"), ("id", id),
        ("error", .obj [("code", .num code), ("message", .str message)])]

/-- `McpServer::handle_initialize`. -/
def handleInitialize (s : McpServer) (id : Json) : Json :=
  jsonrpcSuccess id (.obj
    [("protocolVersion", .str "2024-11-05"),
     ("capabilities", .obj [("tools", .obj [])]),
     ("serverInfo", .obj [("name", .str s.name), ("version", .str s.version)])])

/-- `McpServer::handle_tools_list`. -/
def handleToolsList (s : McpServer) (id : Json) : Json :=
  jsonrpcSuccess id (.obj
    [("tools", .arr (s.tools.map fun tool => .obj
      [("name", .str tool.name),
       ("description", .str tool.description),
       ("inputSchema", tool.inputSchema)]))])

/-- `McpServer::handle_tools_call`: missing `name` → invalid-params error;
unknown name → method-not-found error; otherwise the handler runs and its
failure becomes a *success* result marked `isError`. -/
def handleToolsCall (s : McpServer) (id : Json) (params : Json) : Json :=
  match (params.get "name").bind Json.asStr with
  | none => jsonrpcError id (-32602) "missing 'name' parameter"
  | some toolName =>
    match s.toolMapGet toolName with
    | none => jsonrpcError id (-32601) ("tool '" ++ toolName ++ "' not found")
    | some toolIdx =>
      match s.tools[toolIdx]? with
      -- Unreachable: every index stored in `toolMap` comes from `enumerate`
      -- over `tools`, so `tools[tool_idx]` in the Rust never panics.
      | none => jsonrpcError id (-32601) ("tool '" ++ toolName ++ "' not found")
      | some tool =>
        let arguments := (params.get "arguments").getD (.obj [])
        match tool.handler arguments with
        | .ok content => jsonrpcSuccess id (.obj [("content", content)])
        | .error err => jsonrpcSuccess id (.obj
            [("content", .arr [.obj [("type", .str "text"), ("text", .str err)]]),
             ("isError", .bool true)])

/-- `McpServer::handle_json_message`. -/
def handleJsonMessage (s : McpServer) (msg : Json) : Json :=
  let method := ((msg.get "method").bind Json.asStr).getD ""
  let params := (msg.get "params").getD (.obj [])
  let id := (msg.get "id").getD .null
  if method = "initialize" then s.handleInitialize id
  else if method = "tools/list" then s.handleToolsList id
  else if method = "tools/call" then s.handleToolsCall id params
  else if method = "notifications/initialized" then
    .obj [("jsonrpc", .str "2.0"), ("result", .obj [])]
  else jsonrpcError id (-32601) ("method '" ++ method ++ "' not found")

end McpServer

/-! ## Hooks (`hooks/*.rs`)

Callbacks are pure Lean functions; the Rust `ToolInput` newtype over
`serde_json::Value` is carried as `Json` directly. -/

/-- `pre_tool_use::PreToolUseInput`. -/
structure PreToolUseInput where
  sessionId : String
  transcriptPath : String
  toolName : String
  toolInput : Json

/-- `pre_tool_use::PreToolUseDecision`. -/
inductive PreToolUseDecision where
  | allow
  | deny
  | ask
deriving DecidableEq

/-- `Display for PreToolUseDecision`. -/
def PreToolUseDecision.display : PreToolUseDecision → String
  | .allow => "allow"
  | .deny => "deny"
  | .ask => "ask"

/-- `pre_tool_use::PreToolUseOutput`. -/
structure PreToolUseOutput where
  decision : Option PreToolUseDecision := none
  reason : Option String := none
  updatedInput : Option Json := none

/-- `PreToolUseOutput::to_hook_response`. Conditional `map["k"] = v`
insertions are modelled as ordered appends. -/
def PreToolUseOutput.toHookResponse (o : PreToolUseOutput) : Json :=
  .obj [("hookSpecificOutput", .obj
    ([("hookEventName", Json.str "PreToolUse")]
      ++ (match o.decision with
          | some d => [("permissionDecision", Json.str d.display)]
          | none => [])
      ++ (match o.reason with
          | some r => [("permissionDecisionReason", Json.str r)]
          | none => [])
      ++ (match o.updatedInput with
          | some u => [("updatedInput", u)]
          | none => [])))]

/-- `post_tool_use::PostToolUseInput`. -/
structure PostToolUseInput where
  sessionId : String
  transcriptPath : String
  toolName : String
  toolInput : Json
  toolResponse : Json

/-- `post_tool_use::PostToolUseDecision`. -/
inductive PostToolUseDecision where
  | «continue»
  | block
deriving DecidableEq

/-- `post_tool_use::PostToolUseOutput`. -/
structure PostToolUseOutput where
  decision : Option PostToolUseDecision := none
  reason : Option String := none
  additionalContext : Option String := none

/-- Modelled from the spec: `PostToolUseOutput::to_hook_response` is invoked
by `client.rs` but its definition is not present under `src/` (the
post-tool-use hook file defines the output type without the serialiser).
Per §4.5 the router "serializes them into the kind-specific response shape";
the shape here follows the sibling `UserPromptSubmitOutput::to_hook_response`.
No claim's verdict depends on this payload. -/
def PostToolUseOutput.toHookResponse (o : PostToolUseOutput) : Json :=
  .obj
    ((match o.decision with
      | some .block => [("decision", Json.str "block")]
      | _ => [])
      ++ (match o.reason with
          | some r => [("reason", Json.str r)]
          | none => [])
      ++ [("hookSpecificOutput", .obj
          ([("hookEventName", Json.str "PostToolUse")]
            ++ (match o.additionalContext with
                | some c => [("additionalContext", Json.str c)]
                | none => [])))])

/-- `user_prompt_submit::UserPromptSubmitInput`. -/
structure UserPromptSubmitInput where
  sessionId : String
  transcriptPath : String
  prompt : String

/-- `user_prompt_submit::UserPromptSubmitDecision`. -/
inductive UserPromptSubmitDecision where
  | «continue»
  | block
deriving DecidableEq

/-- `user_prompt_submit::UserPromptSubmitOutput`. -/
structure UserPromptSubmitOutput where
  decision : Option UserPromptSubmitDecision := none
  reason : Option String := none
  additionalContext : Option String := none

/-- `UserPromptSubmitOutput::to_hook_response`. -/
def UserPromptSubmitOutput.toHookResponse (o : UserPromptSubmitOutput) : Json :=
  .obj
    ((match o.decision with
      | some .block => [("decision", Json.str "block")]
      | _ => [])
      ++ (match o.reason with
          | some r => [("reason", Json.str r)]
          | none => [])
      ++ [("hookSpecificOutput", .obj
          ([("hookEventName", Json.str "UserPromptSubmit")]
            ++ (match o.additionalContext with
                | some c => [("additionalContext", Json.str c)]
                | none => [])))])

/-- `stop::StopInput`. -/
structure StopInput where
  sessionId : String
  transcriptPath : String
  stopHookActive : Bool

/-- `stop::StopDecision`. -/
inductive StopDecision where
  | block
deriving DecidableEq

/-- `stop::StopOutput`. -/
structure StopOutput where
  decision : Option StopDecision := none
  reason : Option String := none

/-- `StopOutput::to_hook_response`. -/
def StopOutput.toHookResponse (o : StopOutput) : Json :=
  .obj
    ((match o.decision with
      | some .block => [("decision", Json.str "block")]
      | none => [])
      ++ (match o.reason with
          | some r => [("reason", Json.str r)]
          | none => [])
      ++ [("hookSpecificOutput", .obj [("hookEventName", Json.str "Stop")])])

/-- `hooks::Hooks`: four ordered lists of registered callbacks (tool-use
kinds pair an optional name-matching pattern with the callback). -/
structure Hooks where
  preToolUse : List (Option String × (PreToolUseInput → PreToolUseOutput)) := []
  postToolUse : List (Option String × (PostToolUseInput → PostToolUseOutput)) := []
  userPromptSubmit : List (UserPromptSubmitInput → UserPromptSubmitOutput) := []
  stop : List (StopInput → StopOutput) := []

/-! ## Outbound user messages (`proto/message.rs`) -/

/-- `message::OutgoingUserInner`. -/
structure OutgoingUserInner where
  role : String
  content : UserContent

/-- `message::OutgoingUserMessage`. -/
structure OutgoingUserMessage where
  msgType : String
  message : OutgoingUserInner

/-- `OutgoingUserMessage::new`. -/
def OutgoingUserMessage.new (content : UserContent) : OutgoingUserMessage :=
  { msgType := "user", message := { role := "user", content } }

/-- `OutgoingUserMessage::text`. -/
def OutgoingUserMessage.text (s : String) : OutgoingUserMessage :=
  .new (.text s)

/-- `OutgoingUserMessage::blocks`. -/
def OutgoingUserMessage.blocks (bs : List ContentBlock) : OutgoingUserMessage :=
  .new (.blocks bs)

/-! ## Client (`client.rs`) -/

/-- `client::HookCallbackEntry`. -/
inductive HookCallbackEntry where
  | preToolUse (idx : Nat)
  | postToolUse (idx : Nat)
  | userPromptSubmit (idx : Nat)
  | stop (idx : Nat)
deriving DecidableEq

/-- The synthetic callback identifier `format!("hook_{id}")`. -/
def hookKey (id : Nat) : String :=
  "hook_" ++ toString id

/-- `Client::build_hook_callbacks`: the Rust iterates the four lists in the
fixed order pre, post, prompt-submit, stop with one running counter `id`
that starts at 0 and increments once per entry, inserting
`hook_{id} ↦ entry`. With `p`, `q`, `r` the lengths of the earlier lists,
the counter value at pre index `idx` is `idx`, at post index `idx` is
`p + idx`, at prompt-submit index `idx` is `p + q + idx`, and at stop index
`idx` is `p + q + r + idx`; the four `List.range` segments below spell that
out. All keys are distinct, so the association list looked up front-to-back
has the same contents as the Rust `HashMap`. -/
def buildHookCallbacks (hooks : Option Hooks) :
    List (String × HookCallbackEntry) :=
  match hooks with
  | none => []
  | some h =>
    let p := h.preToolUse.length
    let q := h.postToolUse.length
    let r := h.userPromptSubmit.length
    ((List.range p).map fun idx => (hookKey idx, .preToolUse idx))
      ++ ((List.range q).map fun idx => (hookKey (p + idx), .postToolUse idx))
      ++ ((List.range r).map fun idx =>
            (hookKey (p + q + idx), .userPromptSubmit idx))
      ++ ((List.range h.stop.length).map fun idx =>
            (hookKey (p + q + r + idx), .stop idx))

/-- `json!(pattern)` for the optional matcher pattern. -/
def optStrJson : Option String → Json
  | some s => .str s
  | none => .null

/-- `Client::build_hook_callback_ids`: the JSON advertised to the child in
the Initialize request. `Value::Null` when no hooks are configured;
otherwise an object gaining one key per non-empty list, in the fixed order
PreToolUse, PostToolUse, UserPromptSubmit, Stop, with the same base-offset
id arithmetic as `buildHookCallbacks`. -/
def buildHookCallbackIds (hooks : Option Hooks) : Json :=
  match hooks with
  | none => .null
  | some h =>
    let p := h.preToolUse.length
    let q := h.postToolUse.length
    let r := h.userPromptSubmit.length
    .obj
      ((if h.preToolUse.length ≠ 0 then
          [("PreToolUse", Json.arr (h.preToolUse.enum.map fun it =>
            .obj [("matcher", optStrJson it.2.1),
                  ("callbackIds", .arr [.str (hookKey it.1)])]))]
        else [])
        ++ (if h.postToolUse.length ≠ 0 then
          [("PostToolUse", Json.arr (h.postToolUse.enum.map fun it =>
            .obj [("matcher", optStrJson it.2.1),
                  ("callbackIds", .arr [.str (hookKey (p + it.1))])]))]
        else [])
        ++ (if h.userPromptSubmit.length ≠ 0 then
          [("UserPromptSubmit", Json.arr ((List.range r).map fun i =>
            .str (hookKey (p + q + i))))]
        else [])
        ++ (if h.stop.length ≠ 0 then
          [("Stop", Json.arr ((List.range h.stop.length).map fun i =>
            .str (hookKey (p + q + r + i))))]
        else []))

/-- The mutable state a `Client` owns, together with the transport's record
of successfully written outbound data-channel messages (`writes`). -/
structure ClientState where
  sessionId : Option String := none
  respondedToolIds : List String := []
  mcpServers : List (String × McpServer) := []
  hooks : Option Hooks := none
  hookCallbacks : List (String × HookCallbackEntry) := []
  writes : List OutgoingUserMessage := []

/-- `Client::respond_to_tool`. The transport send's outcome is the `sendOk`
parameter; a failed send records no write. The guard: an id already in
`responded_tool_ids` short-circuits to `Ok` with no send; the id is inserted
only after the send succeeds (`responded.insert` comes after the `?` on the
send in the Rust). -/
def respondToTool (sendOk : Bool) (st : ClientState) (toolUseId : String)
    (content : Json) (isError : Bool) : ClientState × Except Error Unit :=
  if toolUseId ∈ st.respondedToolIds then
    (st, .ok ())
  else
    let toolResult : ContentBlock :=
      .toolResult { toolUseId, content := some content, isError := some isError }
    let msg := OutgoingUserMessage.new (.blocks [toolResult])
    if sendOk then
      ({ st with writes := st.writes ++ [msg],
                 respondedToolIds := toolUseId :: st.respondedToolIds },
       .ok ())
    else
      (st, .error (.processError "stdin closed"))

/-- `Client::clear_tool_response_tracking`. -/
def clearToolResponseTracking (st : ClientState) : ClientState :=
  { st with respondedToolIds := [] }

/-- `Client::handle_mcp_message`: a registered endpoint answers the nested
message and the reply is wrapped in `mcp_response`; an unknown endpoint
yields a *success* control response whose nested payload is a JSON-RPC
method-not-found ("MCP server not found") error. -/
def handleMcpMessage (st : ClientState) (requestId : String)
    (serverName : String) (message : Json) : ResponseEnvelope :=
  match st.mcpServers.lookup serverName with
  | some server =>
    ResponseEnvelope.success requestId
      (some (.obj [("mcp_response", server.handleJsonMessage message)]))
  | none =>
    ResponseEnvelope.success requestId
      (some (.obj [("mcp_response", .obj
        [("jsonrpc", .str "2.0"),
         ("id", .null),
         ("error", .obj
           [("code", .num (-32601)),
            ("message", .str ("MCP server '" ++ serverName ++ "' not found"))])])]))

/-- `Client::handle_hook_callback`: resolve the synthetic callback id via the
map, build the kind-specific input from the generic payload, invoke the
registered callback if its index is still in range, and wrap the serialised
output (or `{}` for an unknown id / missing hooks / out-of-range index) in a
success control response. -/
def handleHookCallback (st : ClientState) (requestId : String)
    (req : HookCallbackRequest) : ResponseEnvelope :=
  match st.hookCallbacks.lookup req.callbackId with
  | none => ResponseEnvelope.success requestId (some (.obj []))
  | some entry =>
    match st.hooks with
    | none => ResponseEnvelope.success requestId (some (.obj []))
    | some hooks =>
      let input := req.input
      let sessionId := ((input.index "session_id").asStr).getD ""
      let transcriptPath := ((input.index "transcript_path").asStr).getD ""
      let responseData :=
        match entry with
        | .preToolUse idx =>
          let toolName := ((input.index "tool_name").asStr).getD ""
          let toolInput := input.index "tool_input"
          let hookInput : PreToolUseInput :=
            { sessionId, transcriptPath, toolName, toolInput }
          match hooks.preToolUse[idx]? with
          | some pc => (pc.2 hookInput).toHookResponse
          | none => .obj []
        | .postToolUse idx =>
          let toolName := ((input.index "tool_name").asStr).getD ""
          let toolInput := input.index "tool_input"
          let toolResponse := input.index "tool_response"
          let hookInput : PostToolUseInput :=
            { sessionId, transcriptPath, toolName, toolInput, toolResponse }
          match hooks.postToolUse[idx]? with
          | some pc => (pc.2 hookInput).toHookResponse
          | none => .obj []
        | .userPromptSubmit idx =>
          let prompt := ((input.index "prompt").asStr).getD ""
          let hookInput : UserPromptSubmitInput :=
            { sessionId, transcriptPath, prompt }
          match hooks.userPromptSubmit[idx]? with
          | some cb => (cb hookInput).toHookResponse
          | none => .obj []
        | .stop idx =>
          let stopHookActive := ((input.index "stop_hook_active").asBool).getD false
          let hookInput : StopInput :=
            { sessionId, transcriptPath, stopHookActive }
          match hooks.stop[idx]? with
          | some cb => (cb hookInput).toHookResponse
          | none => .obj []
      ResponseEnvelope.success requestId (some responseData)

/-- One outcome of `Transport::receive()` inside the loop:
`Ok(Some(incoming))`, `Ok(None)` (end-of-stream), or `Err(e)`. A `receive()`
invocation of the client is modelled as a function of the list of such
outcomes the transport yields, in order. -/
inductive RecvItem where
  | msg (i : Incoming)
  | eof
  | fail (e : Error)

/-- The event-emission tail of the loop body:
`for response in Response::from_message(&msg) { yield Ok(response); if complete { return } }`.
Returns the yielded items and whether a terminal event ended the loop. -/
def emitEvents : List Response → List (Except Error Response) × Bool
  | [] => ([], false)
  | r :: rs =>
    if r.isComplete then ([.ok r], true)
    else
      let (es, t) := emitEvents rs
      (.ok r :: es, t)

/-- The session-identifier recording step of the loop body: on a
`System::Init` message carrying a session id, write it; otherwise leave the
state alone. -/
def applySessionUpdate (st : ClientState) : Message → ClientState
  | .system (.init i) =>
    match i.sessionId with
    | some sid => { st with sessionId := some sid }
    | none => st
  | _ => st

/-- `Client::receive()` (`client.rs`), as a function of the transport's
outcomes: returns the final client state, the stream items yielded (in
order), and the control responses written back over the transport (in
order). Inbound `McpMessage`/`HookCallback` control requests are serviced
inline and the loop resumes; any other control request — and any control
response — is skipped; a content message updates the session id and emits
its semantic events, stopping at a terminal event; `Ok(None)` ends the
stream cleanly; `Err(e)` yields the error and ends the stream. -/
def receiveLoop (st : ClientState) :
    List RecvItem → ClientState × List (Except Error Response) × List ResponseEnvelope
  | [] => (st, [], [])
  | item :: rest =>
    match item with
    | .fail e => (st, [.error e], [])
    | .eof => (st, [], [])
    | .msg incoming =>
      match incoming.asControlRequest with
      | some ctrl =>
        match ctrl.request with
        | .mcpMessage mcpReq =>
          let resp := handleMcpMessage st ctrl.requestId mcpReq.serverName mcpReq.message
          let (st', evs, ws) := receiveLoop st rest
          (st', evs, resp :: ws)
        | .hookCallback hookReq =>
          let resp := handleHookCallback st ctrl.requestId hookReq
          let (st', evs, ws) := receiveLoop st rest
          (st', evs, resp :: ws)
        | _ => receiveLoop st rest
      | none =>
        match incoming.toMessage with
        | some msg =>
          let st' := applySessionUpdate st msg
          let (evs, terminated) := emitEvents (Response.fromMessage msg)
          if terminated then (st', evs, [])
          else
            let (st'', evs', ws) := receiveLoop st' rest
            (st'', evs ++ evs', ws)
        | none => receiveLoop st rest

/-- `serde_json::from_value::<Vec<String>>` for a field of `ServerInfo`. -/
def Json.asStrList : Json → Option (List String)
  | .arr xs => xs.mapM Json.asStr
  | _ => none

/-- `serde_json::from_value::<ServerInfo>` (`control.rs`): camelCase field
names; `version` is required and must be a string; the three list fields
default to empty when absent; remaining keys are collected into `extra`.
The dynamic serde error message is abbreviated to a fixed text (no claim
reads it). -/
def ServerInfo.fromValue (j : Json) : Except Error ServerInfo :=
  match j with
  | .obj members =>
    match (members.lookup "version").bind Json.asStr with
    | none => .error (.json "invalid ServerInfo")
    | some version =>
      let known := ["version", "capabilities", "commands", "outputStyles"]
      let field (key : String) : Except Error (List String) :=
        match members.lookup key with
        | none => .ok []
        | some v =>
          match v.asStrList with
          | some xs => .ok xs
          | none => .error (.json "invalid ServerInfo")
      match field "capabilities", field "commands", field "outputStyles" with
      | .ok capabilities, .ok commands, .ok outputStyles =>
        .ok { version, capabilities, commands, outputStyles,
              extra := members.filter fun kv => kv.1 ∉ known }
      | .error e, _, _ => .error e
      | _, .error e, _ => .error e
      | _, _, .error e => .error e
  | _ => .error (.json "invalid ServerInfo")

/-- The drain loop of `Client::get_server_info`: read until a control
response arrives, discarding everything else; a success outcome with a
payload is decoded, a success outcome without one is a protocol error, an
error outcome becomes a `ControlError` carrying the child-reported request
id and message; end-of-stream is a connection error. `none` means the
supplied trace ran out with the loop still waiting on the transport. -/
def getServerInfoLoop : List RecvItem → Option (Except Error ServerInfo)
  | [] => none
  | .fail e :: _ => some (.error e)
  | .eof :: _ => some (.error (.connectionError "stream ended"))
  | .msg incoming :: rest =>
    match incoming.asControlResponse with
    | some resp =>
      some (match resp.response with
        | .success success =>
          match success.response with
          | some data => ServerInfo.fromValue data
          | none => .error (.protocolError "empty response")
        | .error err => .error (.controlError err.requestId err.error.message))
    | none => getServerInfoLoop rest

/-- `Client::get_server_info`: sends one GetServerInfo control request (the
freshly generated correlation id is a parameter) and runs the drain loop on
the transport's subsequent outcomes. -/
def getServerInfo (requestId : String) (trace : List RecvItem) :
    RequestEnvelope × Option (Except Error ServerInfo) :=
  (RequestEnvelope.newWith requestId .getServerInfo, getServerInfoLoop trace)

/-! ## Conversation layer (`conversation.rs`) -/

/-- `conversation::Turn`. -/
structure Turn where
  prompt : String
  responses : List Response

/-- The `while let Some(result) = stream.next()` body of `TurnBuilder::send`:
fold over the driven `receive()` items, accumulating responses when
`collect` is set, stopping at the first error. The streaming callbacks are
`FnMut` side effects that influence neither the accumulated collection nor
the history, so they are not modelled. -/
def turnSendAux (collect : Bool) (acc : List Response) :
    List (Except Error Response) → List Response × Option Error
  | [] => (acc, none)
  | .ok r :: rest => turnSendAux collect (if collect then acc ++ [r] else acc) rest
  | .error e :: _ => (acc, some e)

/-- `TurnBuilder::send` from the point where the prompt has been emitted:
drive `receive()` (its items are the `items` parameter), then — only when
the stream finished without an error — append the (prompt, collected)
pair to the history and return the collection. An error returns early,
leaving the history untouched. -/
def turnSend (history : List Turn) (prompt : String) (collect : Bool)
    (items : List (Except Error Response)) :
    List Turn × Except Error (List Response) :=
  match turnSendAux collect [] items with
  | (acc, none) => (history ++ [{ prompt, responses := acc }], .ok acc)
  | (_, some e) => (history, .error e)

/-! ## Property-statement helpers

Definitions from here on are not translations of source items; they are the
vocabulary the theorems below are stated in. -/

/-- Whether a yielded stream item is a terminal (`Complete`) event. -/
def isTerminalItem : Except Error Response → Bool
  | .ok r => r.isComplete
  | .error _ => false

/-- Whether a yielded stream item is an error item. -/
def isErrItem : Except Error Response → Bool
  | .error _ => true
  | .ok _ => false

/-- A terminal event, if present in the yielded item list, is its last item. -/
def TerminalLast : List (Except Error Response) → Prop
  | [] => True
  | x :: xs => (isTerminalItem x = true → xs = []) ∧ TerminalLast xs

/-- Whether processing this transport outcome ends the `receive()` loop
(error, end-of-stream, or a message whose events reach a terminal). -/
def stopsLoop : RecvItem → Bool
  | .fail _ => true
  | .eof => true
  | .msg incoming =>
    match incoming.asControlRequest with
    | some _ => false
    | none =>
      match incoming.toMessage with
      | some msg => (emitEvents (Response.fromMessage msg)).2
      | none => false

/-- The prefix of the transport trace that one `receive()` call consumes. -/
def consumedPrefix : List RecvItem → List RecvItem
  | [] => []
  | i :: rest => if stopsLoop i then [i] else i :: consumedPrefix rest

/-- How one consumed transport outcome transforms the stored session id:
only a `System/Init` message carrying a session id writes it. -/
def sidStep (acc : Option String) : RecvItem → Option String
  | .msg (.system (.init i)) =>
    match i.sessionId with
    | some sid => some sid
    | none => acc
  | _ => acc

/-- The tool-result data message `respond_to_tool` writes for a given id. -/
def toolResponseMsg (toolUseId : String) (content : Json) (isError : Bool) :
    OutgoingUserMessage :=
  OutgoingUserMessage.new (.blocks
    [.toolResult { toolUseId, content := some content, isError := some isError }])

/-- Replays a sequence of `respond_to_tool` calls (all with the same id,
all with a succeeding transport). -/
def runRespondCalls (st : ClientState) (toolUseId : String) :
    List (Json × Bool) → ClientState
  | [] => st
  | (c, e) :: rest =>
    runRespondCalls (respondToTool true st toolUseId c e).1 toolUseId rest

/-- Extracts the callback-id strings from a matcher-object entry of the
advertised hooks JSON (`{"matcher": …, "callbackIds": [...]}`). -/
def matcherEntryIds : Json → List String
  | .obj members =>
    match members.lookup "callbackIds" with
    | some (.arr xs) => xs.filterMap Json.asStr
    | _ => []
  | _ => []

/-- All callback ids advertised under a matcher-list key (PreToolUse,
PostToolUse). -/
def advertisedMatcherIds (j : Json) (key : String) : List String :=
  match j.get key with
  | some (.arr xs) => xs.flatMap matcherEntryIds
  | _ => []

/-- All callback ids advertised under a plain-list key (UserPromptSubmit,
Stop). -/
def advertisedPlainIds (j : Json) (key : String) : List String :=
  match j.get key with
  | some (.arr xs) => xs.filterMap Json.asStr
  | _ => []

/-- Every callback id the Initialize request advertises to the child, in
the fixed flattening order pre, post, prompt-submit, stop. -/
def advertisedCallbackIds (j : Json) : List String :=
  advertisedMatcherIds j "PreToolUse" ++ advertisedMatcherIds j "PostToolUse"
    ++ advertisedPlainIds j "UserPromptSubmit" ++ advertisedPlainIds j "Stop"

/-- Decimal digit characters of `n`, most significant first (`[]` for 0):
the reference decoding of `Nat.toString` used to show synthetic hook keys
are injective. -/
def decChars : Nat → List Char
  | 0 => []
  | n + 1 => decChars ((n + 1) / 10) ++ [Nat.digitChar ((n + 1) % 10)]
decreasing_by exact Nat.div_lt_self (Nat.succ_pos n) (by decide)

/-- Reads a decimal digit string back into a number. -/
def decodeDigits (l : List Char) : Nat :=
  l.foldl (fun acc c => acc * 10 + (c.toNat - 48)) 0

/-- A fresh client state, as after `Client::new` with empty configuration. -/
def emptyState : ClientState := {}

/-- A `System/Init` incoming message carrying a session id. -/
def initIncoming (sid : String) : Incoming :=
  .system (.init { sessionId := some sid })

/-- A concrete tool whose handler always fails (witness fixture). -/
def failingTool : Tool :=
  { name := "boom", description := "always fails", inputSchema := .obj [],
    handler := fun _ => .error "execution failed: nope" }

/-- A concrete endpoint registering only `failingTool` (witness fixture). -/
def failingServer : McpServer :=
  { name := "srv", version := "1.0.0", tools := [failingTool] }

/-- A hook table with one hook of each kind (witness fixture). -/
def sampleHooks : Hooks :=
  { preToolUse := [(some "Bash", fun _ => {})],
    postToolUse := [(none, fun _ => {})],
    userPromptSubmit := [fun _ => {}],
    stop := [fun _ => {}] }

/-! ## Helper lemmas -/

/-- Folding cons-prepending over a list reverses its image. -/
theorem foldl_cons_map {α β : Type} (g : α → β) :
    ∀ (l : List α) (acc : List β),
      l.foldl (fun m x => g x :: m) acc = (l.map g).reverse ++ acc := by
  intro l
  induction l with
  | nil => intro acc; simp
  | cons x xs ih =>
    intro acc
    simp [List.foldl_cons, ih, List.reverse_cons, List.append_assoc]

/-- The `tool_map` is a function of the tool *names* alone. -/
theorem toolMap_eq_names (tools : List Tool) :
    McpServer.toolMap tools =
      ((tools.map Tool.name).enum.map fun it => (it.2, it.1)).reverse := by
  have h1 : McpServer.toolMap tools =
      (tools.enum.map fun it => (it.2.name, it.1)).reverse ++ [] :=
    foldl_cons_map _ tools.enum []
  rw [h1, List.append_nil, List.enum_map]
  congr 1
  rw [List.map_map]
  rfl

/-- `tool_map` lookups agree between endpoints whose tools bear the same
names (the handlers play no part). -/
theorem toolMapGet_eq_of_names (s₁ s₂ : McpServer)
    (h : s₁.tools.map Tool.name = s₂.tools.map Tool.name) (name : String) :
    s₁.toolMapGet name = s₂.toolMapGet name := by
  unfold McpServer.toolMapGet
  rw [toolMap_eq_names, toolMap_eq_names, h]

/-- Replaying `respond_to_tool` calls for an id already in the responded set
leaves the state untouched. -/
theorem runRespondCalls_of_mem (toolUseId : String) :
    ∀ (calls : List (Json × Bool)) (st : ClientState),
      toolUseId ∈ st.respondedToolIds →
      runRespondCalls st toolUseId calls = st := by
  intro calls
  induction calls with
  | nil => intro st _; rfl
  | cons call rest ih =>
    intro st hmem
    obtain ⟨c, e⟩ := call
    have hstep : respondToTool true st toolUseId c e = (st, .ok ()) := by
      simp [respondToTool, hmem]
    simp [runRespondCalls, hstep, ih st hmem]

/-- A run of error-free stream items never reports an error. -/
theorem turnSendAux_snd_none (collect : Bool) :
    ∀ (items : List (Except Error Response)),
      (∀ x ∈ items, isErrItem x = false) →
      ∀ acc, (turnSendAux collect acc items).2 = none := by
  intro items
  induction items with
  | nil => intro _ _; rfl
  | cons x rest ih =>
    intro h acc
    match x with
    | .ok r =>
      exact ih (fun y hy => h y (List.mem_cons_of_mem _ hy)) _
    | .error e =>
      exact absurd (h (.error e) (List.mem_cons_self _ _)) (by simp [isErrItem])

/-- A stream whose first error item is `e` makes the fold report `e`. -/
theorem turnSendAux_snd_err (collect : Bool) (e : Error)
    (post : List (Except Error Response)) :
    ∀ (pre : List (Except Error Response)),
      (∀ x ∈ pre, isErrItem x = false) →
      ∀ acc, (turnSendAux collect acc (pre ++ .error e :: post)).2 = some e := by
  intro pre
  induction pre with
  | nil => intro _ _; rfl
  | cons x rest ih =>
    intro h acc
    match x with
    | .ok r =>
      exact ih (fun y hy => h y (List.mem_cons_of_mem _ hy)) _
    | .error e' =>
      exact absurd (h (.error e') (List.mem_cons_self _ _)) (by simp [isErrItem])

/-! ## Claim theorems -/

/-- C10: an assistant envelope carrying an error field decomposes into
exactly one `Error` event wrapping that assistant error; none of the
message's content blocks are emitted as events. -/
theorem C10_assistant_error_overrides_blocks (bs : List ContentBlock)
    (model : String) (err : AssistantError) (extra : List (String × Json)) :
    Response.fromMessage (.assistant ⟨⟨bs, model, some err, extra⟩⟩)
      = [.error (.assistant err)] := rfl

/-- C6: a `tools/call` whose named tool is registered but whose handler
fails returns a normal JSON-RPC *success* envelope for the request's id,
whose result payload is marked `isError: true` with the handler's error
text as content; decoding the response yields `isError == true`. -/
theorem C6_failing_handler_yields_marked_success (s : McpServer)
    (id params : Json) (name : String) (i : Nat) (tool : Tool)
    (errText : String)
    (hname : (params.get "name").bind Json.asStr = some name)
    (hidx : s.toolMapGet name = some i)
    (htool : s.tools[i]? = some tool)
    (hfail : tool.handler ((params.get "arguments").getD (.obj []))
      = .error errText) :
    McpServer.handleToolsCall s id params =
      McpServer.jsonrpcSuccess id (.obj
        [("content", .arr [.obj [("type", .str "text"), ("text", .str errText)]]),
         ("isError", .bool true)]) ∧
    ((McpServer.handleToolsCall s id params).index "result").index "isError"
      = .bool true := by
  have hmain : McpServer.handleToolsCall s id params =
      McpServer.jsonrpcSuccess id (.obj
        [("content", .arr [.obj [("type", .str "text"), ("text", .str errText)]]),
         ("isError", .bool true)]) := by
    simp [McpServer.handleToolsCall, hname, hidx, htool, hfail]
  refine ⟨hmain, ?_⟩
  rw [hmain]
  simp [McpServer.jsonrpcSuccess, Json.index, Json.get, List.lookup]

/-- C6 witness: the concrete failing endpoint produces the marked-error
success payload. -/
theorem C6_witness :
    McpServer.handleToolsCall failingServer .null (.obj [("name", .str "boom")]) =
      McpServer.jsonrpcSuccess .null (.obj
        [("content", .arr [.obj [("type", .str "text"),
                                 ("text", .str "execution failed: nope")]]),
         ("isError", .bool true)]) ∧
    ((McpServer.handleToolsCall failingServer .null
        (.obj [("name", .str "boom")])).index "result").index "isError"
      = .bool true :=
  C6_failing_handler_yields_marked_success failingServer .null
    (.obj [("name", .str "boom")]) "boom" 0 failingTool
    "execution failed: nope" rfl rfl rfl rfl

/-- C7: a `tools/call` with a missing `name` parameter or an unregistered
tool name yields an error result (a value, not an exception) that is fully
determined without the tool handlers — endpoints with the same tool names
give the same answer — and any method other than `initialize`,
`tools/list`, `tools/call`, `notifications/initialized` yields a
method-not-found error result. -/
theorem C7_error_results_without_handlers (s : McpServer)
    (id params msg : Json) :
    ((params.get "name").bind Json.asStr = none →
      McpServer.handleToolsCall s id params =
        McpServer.jsonrpcError id (-32602) "missing 'name' parameter") ∧
    (∀ name, (params.get "name").bind Json.asStr = some name →
      s.toolMapGet name = none →
      McpServer.handleToolsCall s id params =
        McpServer.jsonrpcError id (-32601) ("tool '" ++ name ++ "' not found")) ∧
    (∀ s₂ : McpServer, s₂.tools.map Tool.name = s.tools.map Tool.name →
      ((params.get "name").bind Json.asStr = none ∨
        (∃ name, (params.get "name").bind Json.asStr = some name ∧
          s.toolMapGet name = none)) →
      McpServer.handleToolsCall s₂ id params =
        McpServer.handleToolsCall s id params) ∧
    (∀ method, method = ((msg.get "method").bind Json.asStr).getD "" →
      method ≠ "initialize" → method ≠ "tools/list" → method ≠ "tools/call" →
      method ≠ "notifications/initialized" →
      McpServer.handleJsonMessage s msg =
        McpServer.jsonrpcError ((msg.get "id").getD .null) (-32601)
          ("method '" ++ method ++ "' not found")) := by
  refine ⟨?_, ?_, ?_, ?_⟩
  · intro h
    simp [McpServer.handleToolsCall, h]
  · intro name hname hmiss
    simp [McpServer.handleToolsCall, hname, hmiss]
  · intro s₂ hnames hcase
    rcases hcase with h | ⟨name, hname, hmiss⟩
    · simp [McpServer.handleToolsCall, h]
    · have h₂ : s₂.toolMapGet name = none := by
        rw [toolMapGet_eq_of_names s₂ s hnames, hmiss]
      simp [McpServer.handleToolsCall, hname, hmiss, h₂]
  · intro method hmethod h1 h2 h3 h4
    simp only [McpServer.handleJsonMessage, ← hmethod]
    rw [if_neg h1, if_neg h2, if_neg h3, if_neg h4]

/-- C7 witness: a missing name, an unknown name (with handler-independence
against an endpoint with the same single tool name), and an unknown method,
all at concrete inputs. -/
theorem C7_witness :
    McpServer.handleToolsCall failingServer .null (.obj []) =
      McpServer.jsonrpcError .null (-32602) "missing 'name' parameter" ∧
    McpServer.handleToolsCall failingServer .null (.obj [("name", .str "zap")]) =
      McpServer.jsonrpcError .null (-32601) "tool 'zap' not found" ∧
    McpServer.handleJsonMessage failingServer
        (.obj [("method", .str "resources/list")]) =
      McpServer.jsonrpcError .null (-32601) "method 'resources/list' not found" :=
  ⟨(C7_error_results_without_handlers failingServer .null (.obj []) .null).1 rfl,
   ((C7_error_results_without_handlers failingServer .null
      (.obj [("name", .str "zap")]) .null).2.1) "zap" rfl rfl,
   ((C7_error_results_without_handlers failingServer .null .null
      (.obj [("method", .str "resources/list")])).2.2.2) "resources/list"
     rfl (by decide) (by decide) (by decide) (by decide)⟩

/-- C8: inbound control requests addressed to an unknown target never get an
error-outcome control response: an `McpMessage` for an endpoint absent from
the registry is answered with a *success* envelope wrapping a
method-not-found "server not found" protocol error, and a `HookCallback`
whose id has no registration — or whose resolved index is past the end of
its hook list — is answered with a success envelope carrying an empty
payload. -/
theorem C8_unknown_targets_get_success_responses (st : ClientState)
    (requestId serverName : String) (message : Json)
    (req : HookCallbackRequest) (hooks : Hooks) :
    (st.mcpServers.lookup serverName = none →
      handleMcpMessage st requestId serverName message =
        ResponseEnvelope.success requestId (some (.obj [("mcp_response", .obj
          [("jsonrpc", .str "2.0"), ("id", .null),
           ("error", .obj [("code", .num (-32601)),
             ("message",
              .str ("MCP server '" ++ serverName ++ "' not found"))])])]))) ∧
    (st.hookCallbacks.lookup req.callbackId = none →
      handleHookCallback st requestId req =
        ResponseEnvelope.success requestId (some (.obj []))) ∧
    (∀ idx, st.hookCallbacks.lookup req.callbackId = some (.preToolUse idx) →
      st.hooks = some hooks → hooks.preToolUse[idx]? = none →
      handleHookCallback st requestId req =
        ResponseEnvelope.success requestId (some (.obj []))) ∧
    (∀ idx, st.hookCallbacks.lookup req.callbackId = some (.postToolUse idx) →
      st.hooks = some hooks → hooks.postToolUse[idx]? = none →
      handleHookCallback st requestId req =
        ResponseEnvelope.success requestId (some (.obj []))) ∧
    (∀ idx,
      st.hookCallbacks.lookup req.callbackId = some (.userPromptSubmit idx) →
      st.hooks = some hooks → hooks.userPromptSubmit[idx]? = none →
      handleHookCallback st requestId req =
        ResponseEnvelope.success requestId (some (.obj []))) ∧
    (∀ idx, st.hookCallbacks.lookup req.callbackId = some (.stop idx) →
      st.hooks = some hooks → hooks.stop[idx]? = none →
      handleHookCallback st requestId req =
        ResponseEnvelope.success requestId (some (.obj []))) := by
  refine ⟨?_, ?_, ?_, ?_, ?_, ?_⟩
  · intro h
    simp [handleMcpMessage, h]
  · intro h
    simp [handleHookCallback, h]
  all_goals intro idx hentry hhooks hoob
  all_goals simp [handleHookCallback, hentry, hhooks, hoob]

/-- C8 witness: a concrete unknown endpoint name, a concrete unknown hook
callback id, and a concrete out-of-range prompt-submit index. -/
theorem C8_witness :
    handleMcpMessage emptyState "req-1" "nosuch" (.obj []) =
      ResponseEnvelope.success "req-1" (some (.obj [("mcp_response", .obj
        [("jsonrpc", .str "2.0"), ("id", .null),
         ("error", .obj [("code", .num (-32601)),
           ("message", .str "MCP server 'nosuch' not found")])])])) ∧
    handleHookCallback emptyState "req-2"
        { callbackId := "hook_9", input := .obj [] } =
      ResponseEnvelope.success "req-2" (some (.obj [])) ∧
    handleHookCallback
        { emptyState with
            hookCallbacks := [("hook_0", .userPromptSubmit 0)],
            hooks := some {} } "req-3"
        { callbackId := "hook_0", input := .obj [] } =
      ResponseEnvelope.success "req-3" (some (.obj [])) :=
  ⟨(C8_unknown_targets_get_success_responses emptyState "req-1" "nosuch"
      (.obj []) { callbackId := "", input := .obj [] } {}).1 rfl,
   (C8_unknown_targets_get_success_responses emptyState "req-2" ""
      (.obj []) { callbackId := "hook_9", input := .obj [] } {}).2.1 rfl,
   ((C8_unknown_targets_get_success_responses
      { emptyState with
          hookCallbacks := [("hook_0", .userPromptSubmit 0)],
          hooks := some {} } "req-3" "" (.obj [])
      { callbackId := "hook_0", input := .obj [] } {}).2.2.2.2.1) 0
     rfl rfl rfl⟩

/-- C2: for calls to `respond_to_tool` with the same tool-use id, only the
first performs a transport send; duplicates return success silently with no
send; the id enters the responded set only after a successful send, so a
failed send leaves the state unchanged and a later call re-attempts; a
whole sequence of calls on a fresh id records exactly one write, and
clearing the set and repeating a previously-responded id records exactly
one new write. -/
theorem C2_respond_to_tool_at_most_once (st : ClientState)
    (toolUseId : String) (content : Json) (isError : Bool) :
    (toolUseId ∈ st.respondedToolIds →
      ∀ sendOk, respondToTool sendOk st toolUseId content isError
        = (st, .ok ())) ∧
    (toolUseId ∉ st.respondedToolIds →
      respondToTool true st toolUseId content isError =
        ({ st with
            writes := st.writes ++ [toolResponseMsg toolUseId content isError],
            respondedToolIds := toolUseId :: st.respondedToolIds }, .ok ())) ∧
    (toolUseId ∉ st.respondedToolIds →
      respondToTool false st toolUseId content isError =
        (st, .error (.processError "stdin closed"))) ∧
    (∀ (calls : List (Json × Bool)) (c : Json) (e : Bool),
      toolUseId ∉ st.respondedToolIds →
      (runRespondCalls st toolUseId ((c, e) :: calls)).writes =
        st.writes ++ [toolResponseMsg toolUseId c e]) ∧
    (∀ (calls : List (Json × Bool)) (c : Json) (e : Bool),
      (runRespondCalls (clearToolResponseTracking st) toolUseId
          ((c, e) :: calls)).writes =
        st.writes ++ [toolResponseMsg toolUseId c e]) := by
  have hfresh : ∀ (st' : ClientState), toolUseId ∉ st'.respondedToolIds →
      ∀ (calls : List (Json × Bool)) (c : Json) (e : Bool),
        (runRespondCalls st' toolUseId ((c, e) :: calls)).writes =
          st'.writes ++ [toolResponseMsg toolUseId c e] := by
    intro st' hmem calls c e
    have hstep : respondToTool true st' toolUseId c e =
        ({ st' with
            writes := st'.writes ++ [toolResponseMsg toolUseId c e],
            respondedToolIds := toolUseId :: st'.respondedToolIds }, .ok ()) := by
      simp [respondToTool, hmem, toolResponseMsg]
    have hrest := runRespondCalls_of_mem toolUseId calls
      { st' with
          writes := st'.writes ++ [toolResponseMsg toolUseId c e],
          respondedToolIds := toolUseId :: st'.respondedToolIds }
      (List.mem_cons_self _ _)
    simp [runRespondCalls, hstep, hrest]
  refine ⟨?_, ?_, ?_, ?_, ?_⟩
  · intro hmem sendOk
    simp [respondToTool, hmem]
  · intro hmem
    simp [respondToTool, hmem, toolResponseMsg]
  · intro hmem
    simp [respondToTool, hmem]
  · intro calls c e hmem
    exact hfresh st hmem calls c e
  · intro calls c e
    exact hfresh (clearToolResponseTracking st) (by simp [clearToolResponseTracking])
      calls c e

/-- C2 witness: a fresh id is written once; a duplicate call is a silent
no-op; a failed send leaves the set unchanged; a three-call sequence on a
fresh id records exactly one write; clear-then-repeat records one more. -/
theorem C2_witness :
    respondToTool true emptyState "tu-1" .null false =
      ({ emptyState with
          writes := [toolResponseMsg "tu-1" .null false],
          respondedToolIds := ["tu-1"] }, .ok ()) ∧
    respondToTool true
        { emptyState with respondedToolIds := ["tu-1"] } "tu-1" .null false =
      ({ emptyState with respondedToolIds := ["tu-1"] }, .ok ()) ∧
    respondToTool false emptyState "tu-1" .null false =
      (emptyState, .error (.processError "stdin closed")) ∧
    (runRespondCalls emptyState "tu-1"
        [(.null, false), (.null, true), (.null, false)]).writes =
      [toolResponseMsg "tu-1" .null false] ∧
    (runRespondCalls
        (clearToolResponseTracking
          { emptyState with respondedToolIds := ["tu-1"] }) "tu-1"
        [(.null, true), (.null, true)]).writes =
      [toolResponseMsg "tu-1" .null true] :=
  ⟨(C2_respond_to_tool_at_most_once emptyState "tu-1" .null false).2.1
      (by decide),
   (C2_respond_to_tool_at_most_once
      { emptyState with respondedToolIds := ["tu-1"] } "tu-1" .null false).1
      (by decide) true,
   (C2_respond_to_tool_at_most_once emptyState "tu-1" .null false).2.2.1
      (by decide),
   (C2_respond_to_tool_at_most_once emptyState "tu-1" .null false).2.2.2.1
      [(.null, true), (.null, false)] .null false (by decide),
   (C2_respond_to_tool_at_most_once
      { emptyState with respondedToolIds := ["tu-1"] } "tu-1" .null
      false).2.2.2.2 [(.null, true)] .null true⟩

/-- C9: the (prompt, collected-events) pair is appended to the conversation
history exactly once when the driven `receive()` stream completes without
an error, and not at all when an error item cuts the stream short. -/
theorem C9_history_appended_on_completion (hist : List Turn) (prompt : String)
    (collect : Bool) (items : List (Except Error Response)) :
    ((∀ x ∈ items, isErrItem x = false) →
      (turnSend hist prompt collect items).1 =
        hist ++ [{ prompt, responses := (turnSendAux collect [] items).1 }] ∧
      (turnSend hist prompt collect items).2 =
        .ok (turnSendAux collect [] items).1) ∧
    (∀ (pre : List (Except Error Response)) (e : Error)
        (post : List (Except Error Response)),
      items = pre ++ .error e :: post →
      (∀ x ∈ pre, isErrItem x = false) →
      turnSend hist prompt collect items = (hist, .error e)) := by
  constructor
  · intro h
    have hnone := turnSendAux_snd_none collect items h []
    unfold turnSend
    rcases heq : turnSendAux collect [] items with ⟨acc, res⟩
    rw [heq] at hnone
    simp at hnone
    subst hnone
    simp [heq]
  · intro pre e post hitems hpre
    have hsome := turnSendAux_snd_err collect e post pre hpre []
    unfold turnSend
    rw [hitems]
    rcases heq : turnSendAux collect [] (pre ++ .error e :: post) with ⟨acc, res⟩
    rw [heq] at hsome
    simp at hsome
    subst hsome
    simp

/-- C9 witness: completing a one-event stream appends exactly one turn and
returns the collection; an immediate error appends nothing. -/
theorem C9_witness :
    (turnSend [] "p" true [.ok (.text { text := "hi" })]).1 =
      [{ prompt := "p", responses := [.text { text := "hi" }] }] ∧
    (turnSend [] "p" true [.ok (.text { text := "hi" })]).2 =
      .ok [.text { text := "hi" }] ∧
    turnSend [] "p" true [.error (.timeout "t")] =
      ([], .error (.timeout "t")) :=
  ⟨((C9_history_appended_on_completion [] "p" true
      [.ok (.text { text := "hi" })]).1
      (by intro x hx; simp at hx; subst hx; rfl)).1,
   ((C9_history_appended_on_completion [] "p" true
      [.ok (.text { text := "hi" })]).1
      (by intro x hx; simp at hx; subst hx; rfl)).2,
   (C9_history_appended_on_completion [] "p" true
      [.error (.timeout "t")]).2 [] (.timeout "t") [] rfl
      (by intro x hx; simp at hx)⟩

/-- C5: `get_server_info` sends one GetServerInfo control request, then
drains incoming items — discarding everything that is not a control
response — until a control response arrives; an error outcome becomes a
`ControlError` carrying the child-reported request id and message; a
success outcome without a payload becomes a `ProtocolError`; end-of-stream
reached before any control response yields a failure, never success. -/
theorem C5_get_server_info_drain (requestId : String) (trace : List RecvItem) :
    ((getServerInfo requestId trace).1 =
      { msgType := "control_request", requestId, request := .getServerInfo }) ∧
    (∀ (incoming : Incoming) (rest : List RecvItem),
      incoming.asControlResponse = none →
      getServerInfoLoop (.msg incoming :: rest) = getServerInfoLoop rest) ∧
    (∀ (err : CtrlErrorResponse) (extra : List (String × Json))
        (rest : List RecvItem),
      getServerInfoLoop (.msg (.controlResponse ⟨.error err, extra⟩) :: rest) =
        some (.error (.controlError err.requestId err.error.message))) ∧
    (∀ (rid : String) (extra₂ extra : List (String × Json))
        (rest : List RecvItem),
      getServerInfoLoop
          (.msg (.controlResponse ⟨.success ⟨rid, none, extra₂⟩, extra⟩) :: rest)
        = some (.error (.protocolError "empty response"))) ∧
    (∀ (pre rest : List RecvItem),
      (∀ i ∈ pre, ∃ incoming, i = .msg incoming ∧
        incoming.asControlResponse = none) →
      getServerInfoLoop (pre ++ .eof :: rest) =
        some (.error (.connectionError "stream ended"))) := by
  refine ⟨rfl, ?_, fun _ _ _ => rfl, fun _ _ _ _ => rfl, ?_⟩
  · intro incoming rest h
    simp [getServerInfoLoop, h]
  · intro pre
    induction pre with
    | nil => intro rest _; rfl
    | cons i pre' ih =>
      intro rest h
      obtain ⟨incoming, rfl, hnone⟩ := h i (List.mem_cons_self _ _)
      have := ih rest (fun x hx => h x (List.mem_cons_of_mem _ hx))
      simpa [getServerInfoLoop, hnone] using this

/-- C5 witness: an error outcome, an empty success outcome, and an
end-of-stream after one drained assistant line, at concrete inputs. -/
theorem C5_witness :
    getServerInfoLoop
        [.msg (.controlResponse ⟨.error ⟨"r1", ⟨-1, "bad", none⟩, []⟩, []⟩)] =
      some (.error (.controlError "r1" "bad")) ∧
    getServerInfoLoop [.msg (.controlResponse ⟨.success ⟨"r1", none, []⟩, []⟩)] =
      some (.error (.protocolError "empty response")) ∧
    getServerInfoLoop [.msg (.assistant ⟨⟨[], "m", none, []⟩⟩), .eof] =
      some (.error (.connectionError "stream ended")) :=
  ⟨(C5_get_server_info_drain "x" []).2.2.1 ⟨"r1", ⟨-1, "bad", none⟩, []⟩ [] [],
   (C5_get_server_info_drain "x" []).2.2.2.1 "r1" [] [] [],
   (C5_get_server_info_drain "x" []).2.2.2.2
     [.msg (.assistant ⟨⟨[], "m", none, []⟩⟩)] []
     (by
       intro i hi
       simp at hi
       subst hi
       exact ⟨_, rfl, rfl⟩)⟩

/-- A content block never maps to a terminal event. -/
theorem ofBlock_not_complete (b : ContentBlock) :
    (Response.ofBlock b).isComplete = false := by
  cases b <;> rfl

/-- Emitting the events of an assistant message yields one `Ok` item per
block, in block order, without terminating the loop. -/
theorem emitEvents_map_ofBlock (bs : List ContentBlock) :
    emitEvents (bs.map Response.ofBlock) =
      (bs.map fun b => .ok (Response.ofBlock b), false) := by
  induction bs with
  | nil => rfl
  | cons b rest ih =>
    simp [emitEvents, ofBlock_not_complete b, ih]

/-- When emission did not terminate, none of the emitted items is
terminal. -/
theorem emitEvents_no_terminal (evs : List Response) :
    (emitEvents evs).2 = false →
      ∀ x ∈ (emitEvents evs).1, isTerminalItem x = false := by
  induction evs with
  | nil => intro _ x hx; simp [emitEvents] at hx
  | cons r rest ih =>
    intro hsnd x hx
    by_cases hc : r.isComplete
    · simp [emitEvents, hc] at hsnd
    · rcases heq : emitEvents rest with ⟨es, t⟩
      simp [emitEvents, hc, heq] at hsnd hx
      rcases hx with rfl | hx
      · simp [isTerminalItem, hc]
      · exact ih (by rw [heq]; exact hsnd) x (by rw [heq]; exact hx)

/-- The emitted item list of any message has terminal items only in last
position. -/
theorem emitEvents_terminalLast (evs : List Response) :
    TerminalLast (emitEvents evs).1 := by
  induction evs with
  | nil => trivial
  | cons r rest ih =>
    by_cases hc : r.isComplete
    · simp only [emitEvents, hc, if_pos]
      exact ⟨fun _ => rfl, trivial⟩
    · rcases heq : emitEvents rest with ⟨es, t⟩
      simp only [emitEvents, hc, if_neg, Bool.false_eq_true, not_false_iff, heq]
      refine ⟨fun ht => absurd ht (by simp [isTerminalItem, hc]), ?_⟩
      rw [heq] at ih
      exact ih

/-- Prepending non-terminal items preserves terminal-last. -/
theorem TerminalLast_append (a b : List (Except Error Response))
    (ha : ∀ x ∈ a, isTerminalItem x = false) (hb : TerminalLast b) :
    TerminalLast (a ++ b) := by
  induction a with
  | nil => simpa using hb
  | cons x xs ih =>
    refine ⟨fun ht => ?_, ?_⟩
    · exact absurd ht (by simp [ha x (List.mem_cons_self _ _)])
    · exact ih fun y hy => ha y (List.mem_cons_of_mem _ hy)

/-- One step of the terminal-last invariant: processing a content message
keeps terminal items last. -/
theorem receiveLoop_terminalLast_msg (st : ClientState) (rest : List RecvItem)
    (incoming : Incoming) (msg : Message)
    (hcr : incoming.asControlRequest = none)
    (hmsg : incoming.toMessage = some msg)
    (ih : ∀ st' : ClientState, TerminalLast (receiveLoop st' rest).2.1) :
    TerminalLast (receiveLoop st (.msg incoming :: rest)).2.1 := by
  rcases hemit : emitEvents (Response.fromMessage msg) with ⟨evs, term⟩
  rcases hrec : receiveLoop (applySessionUpdate st msg) rest
    with ⟨st'', evs', ws⟩
  by_cases hterm : term = true
  · subst hterm
    have := emitEvents_terminalLast (Response.fromMessage msg)
    rw [hemit] at this
    simpa [receiveLoop, hcr, hmsg, hemit] using this
  · have hterm' : term = false := by simpa using hterm
    subst hterm'
    have hnt := emitEvents_no_terminal (Response.fromMessage msg)
      (by rw [hemit])
    rw [hemit] at hnt
    have hrest := ih (applySessionUpdate st msg)
    rw [hrec] at hrest
    have := TerminalLast_append evs evs' hnt hrest
    simpa [receiveLoop, hcr, hmsg, hemit, hrec] using this

/-- Terminal events are last in everything `receive()` yields. -/
theorem receiveLoop_terminalLast :
    ∀ (items : List RecvItem) (st : ClientState),
      TerminalLast (receiveLoop st items).2.1 := by
  intro items
  induction items with
  | nil => intro st; trivial
  | cons item rest ih =>
    intro st
    match item with
    | .fail e => exact ⟨fun ht => by simp [isTerminalItem] at ht, trivial⟩
    | .eof => trivial
    | .msg incoming =>
      match incoming with
      | .controlRequest ctrl =>
        cases hreq : ctrl.request with
        | mcpMessage m =>
          rcases heq : receiveLoop st rest with ⟨st', evs, ws⟩
          have := ih st
          rw [heq] at this
          simpa [receiveLoop, Incoming.asControlRequest, hreq, heq] using this
        | hookCallback hr =>
          rcases heq : receiveLoop st rest with ⟨st', evs, ws⟩
          have := ih st
          rw [heq] at this
          simpa [receiveLoop, Incoming.asControlRequest, hreq, heq] using this
        | _ =>
          have := ih st
          simpa [receiveLoop, Incoming.asControlRequest, hreq] using this
      | .controlResponse r =>
        have := ih st
        simpa [receiveLoop, Incoming.asControlRequest, Incoming.toMessage]
          using this
      | .user u => exact receiveLoop_terminalLast_msg st rest _ (.user u) rfl rfl ih
      | .assistant a =>
        exact receiveLoop_terminalLast_msg st rest _ (.assistant a) rfl rfl ih
      | .system s =>
        exact receiveLoop_terminalLast_msg st rest _ (.system s) rfl rfl ih
      | .result r =>
        exact receiveLoop_terminalLast_msg st rest _ (.result r) rfl rfl ih

/-- C1: an assistant content message with N content blocks makes `receive()`
yield exactly N semantic events, one per block in block order; a result
message yields exactly one terminal `Complete` event and ends the loop
immediately without reading the remaining buffered items; a terminal event,
when present, is always the last yielded item; end-of-stream ends the
stream cleanly with no error item and no terminal event. -/
theorem C1_receive_stream_semantics :
    (∀ (st : ClientState) (bs : List ContentBlock) (model : String)
        (extra : List (String × Json)) (rest : List RecvItem),
      receiveLoop st (.msg (.assistant ⟨⟨bs, model, none, extra⟩⟩) :: rest) =
        ((receiveLoop st rest).1,
         (bs.map fun b => .ok (Response.ofBlock b)) ++ (receiveLoop st rest).2.1,
         (receiveLoop st rest).2.2)) ∧
    (∀ (st : ClientState) (r : ResultMessage) (rest : List RecvItem),
      receiveLoop st (.msg (.result r) :: rest) =
        (st, [.ok (.complete r)], [])) ∧
    (∀ (st : ClientState) (items : List RecvItem),
      TerminalLast (receiveLoop st items).2.1) ∧
    (∀ (st : ClientState) (rest : List RecvItem),
      receiveLoop st (.eof :: rest) = (st, [], []) ∧
      receiveLoop st [] = (st, [], [])) := by
  refine ⟨?_, fun _ _ _ => rfl, fun st items => receiveLoop_terminalLast items st,
    fun _ _ => ⟨rfl, rfl⟩⟩
  intro st bs model extra rest
  rcases hrec : receiveLoop st rest with ⟨st', evs, ws⟩
  simp [receiveLoop, Incoming.asControlRequest, Incoming.toMessage,
    applySessionUpdate, Response.fromMessage, emitEvents_map_ofBlock, hrec]

/-- C1 witness: a two-block assistant message yields two text events and a
clean end; a result message followed by further buffered lines yields
exactly the one terminal event with the trailing lines unread; a bare
end-of-stream yields nothing. -/
theorem C1_witness :
    receiveLoop emptyState
        [.msg (.assistant ⟨⟨[.text ⟨"ab", []⟩, .text ⟨"cd", []⟩], "m", none,
          []⟩⟩)] =
      (emptyState, [.ok (.text ⟨"ab", []⟩), .ok (.text ⟨"cd", []⟩)], []) ∧
    receiveLoop emptyState
        [.msg (.result { subtype := "success", sessionId := "abc", numTurns := 1 }),
         .eof, .msg (initIncoming "zzz")] =
      (emptyState,
       [.ok (.complete { subtype := "success", sessionId := "abc", numTurns := 1 })],
       []) ∧
    receiveLoop emptyState [.eof] = (emptyState, [], []) :=
  ⟨C1_receive_stream_semantics.1 emptyState [.text ⟨"ab", []⟩, .text ⟨"cd", []⟩]
      "m" [] [],
   C1_receive_stream_semantics.2.1 emptyState
     { subtype := "success", sessionId := "abc", numTurns := 1 }
     [.eof, .msg (initIncoming "zzz")],
   (C1_receive_stream_semantics.2.2.2 emptyState []).1⟩

/-- The session-update step performed while processing a content message
coincides with `sidStep` on the carrying transport item. -/
theorem applySessionUpdate_sidStep (st : ClientState) (incoming : Incoming)
    (msg : Message) (hmsg : incoming.toMessage = some msg) :
    (applySessionUpdate st msg).sessionId =
      sidStep st.sessionId (.msg incoming) := by
  cases incoming with
  | user u =>
    simp [Incoming.toMessage] at hmsg
    subst hmsg; rfl
  | assistant a =>
    simp [Incoming.toMessage] at hmsg
    subst hmsg; rfl
  | result r =>
    simp [Incoming.toMessage] at hmsg
    subst hmsg; rfl
  | system s =>
    simp [Incoming.toMessage] at hmsg
    subst hmsg
    cases s with
    | init i =>
      cases hsid : i.sessionId <;> simp [applySessionUpdate, sidStep, hsid]
    | error e => rfl
  | controlRequest c => simp [Incoming.toMessage] at hmsg
  | controlResponse c => simp [Incoming.toMessage] at hmsg

/-- One step of the session-id characterisation for a content message. -/
theorem receiveLoop_sessionId_msg (st : ClientState) (rest : List RecvItem)
    (incoming : Incoming) (msg : Message)
    (hcr : incoming.asControlRequest = none)
    (hmsg : incoming.toMessage = some msg)
    (ih : ∀ st' : ClientState, (receiveLoop st' rest).1.sessionId =
      (consumedPrefix rest).foldl sidStep st'.sessionId) :
    (receiveLoop st (.msg incoming :: rest)).1.sessionId =
      (consumedPrefix (.msg incoming :: rest)).foldl sidStep st.sessionId := by
  rcases hemit : emitEvents (Response.fromMessage msg) with ⟨evs, term⟩
  have hstop : stopsLoop (.msg incoming) = term := by
    simp [stopsLoop, hcr, hmsg, hemit]
  have hsid := applySessionUpdate_sidStep st incoming msg hmsg
  by_cases hterm : term = true
  · subst hterm
    simp [receiveLoop, hcr, hmsg, hemit, consumedPrefix, hstop, hsid]
  · have hterm' : term = false := by simpa using hterm
    subst hterm'
    rcases hrec : receiveLoop (applySessionUpdate st msg) rest
      with ⟨st'', evs', ws⟩
    have hih := ih (applySessionUpdate st msg)
    rw [hrec] at hih
    simp only [] at hih
    rw [hsid] at hih
    simp [receiveLoop, hcr, hmsg, hemit, consumedPrefix, hstop, hrec, hih]

/-- C4 counterexample: a client whose session id already holds `"abc"`
processes a later `System/Init` carrying `"xyz"` and ends up holding
`"xyz"` — the stored value is not left unchanged once set. -/
theorem C4_counterexample_session_id_overwritten :
    (receiveLoop emptyState [.msg (initIncoming "abc")]).1.sessionId
      = some "abc" ∧
    (receiveLoop { emptyState with sessionId := some "abc" }
        [.msg (initIncoming "xyz")]).1.sessionId = some "xyz" ∧
    (some "xyz" : Option String) ≠ some "abc" :=
  ⟨rfl, rfl, by decide⟩

/-- C4 (amended): the receive loop is the session id's only writer, and it
overwrites on *every* `System/Init` message carrying a session identifier —
last-writer-wins — while every other processed item leaves the value
unchanged: the final session id is the fold of `sidStep` over exactly the
consumed prefix of the transport trace. -/
theorem C4_amended_session_id_last_init_wins :
    ∀ (items : List RecvItem) (st : ClientState),
      (receiveLoop st items).1.sessionId =
        (consumedPrefix items).foldl sidStep st.sessionId := by
  intro items
  induction items with
  | nil => intro st; rfl
  | cons item rest ih =>
    intro st
    match item with
    | .fail e => simp [receiveLoop, consumedPrefix, stopsLoop, sidStep]
    | .eof => simp [receiveLoop, consumedPrefix, stopsLoop, sidStep]
    | .msg incoming =>
      match incoming with
      | .controlRequest ctrl =>
        have hstop : stopsLoop (.msg (.controlRequest ctrl)) = false := by
          simp [stopsLoop, Incoming.asControlRequest]
        cases hreq : ctrl.request with
        | mcpMessage m =>
          rcases hrec : receiveLoop st rest with ⟨st', evs, ws⟩
          have hih := ih st
          rw [hrec] at hih
          simp only [] at hih
          simp [receiveLoop, Incoming.asControlRequest, hreq, hrec,
            consumedPrefix, hstop, sidStep, hih]
        | hookCallback hr =>
          rcases hrec : receiveLoop st rest with ⟨st', evs, ws⟩
          have hih := ih st
          rw [hrec] at hih
          simp only [] at hih
          simp [receiveLoop, Incoming.asControlRequest, hreq, hrec,
            consumedPrefix, hstop, sidStep, hih]
        | _ =>
          have := ih st
          simp [receiveLoop, Incoming.asControlRequest, hreq,
            consumedPrefix, hstop, sidStep, this]
      | .controlResponse r =>
        have hstop : stopsLoop (.msg (.controlResponse r)) = false := by
          simp [stopsLoop, Incoming.asControlRequest, Incoming.toMessage]
        have := ih st
        simp [receiveLoop, Incoming.asControlRequest, Incoming.toMessage,
          consumedPrefix, hstop, sidStep, this]
      | .user u => exact receiveLoop_sessionId_msg st rest _ (.user u) rfl rfl ih
      | .assistant a =>
        exact receiveLoop_sessionId_msg st rest _ (.assistant a) rfl rfl ih
      | .system s =>
        exact receiveLoop_sessionId_msg st rest _ (.system s) rfl rfl ih
      | .result r =>
        exact receiveLoop_sessionId_msg st rest _ (.result r) rfl rfl ih

/-- Decimal digit characters decode back to their digit. -/
theorem digitChar_toNat_sub (m : Nat) (h : m < 10) :
    (Nat.digitChar m).toNat - 48 = m := by
  interval_cases m <;> rfl

/-- Unfolding `decChars` at a positive argument. -/
theorem decChars_pos (n : Nat) (h : n ≠ 0) :
    decChars n = decChars (n / 10) ++ [Nat.digitChar (n % 10)] := by
  cases n with
  | zero => exact absurd rfl h
  | succ m => rw [decChars]

/-- Appending one digit multiplies the decoded value by ten and adds it. -/
theorem decodeDigits_append (xs : List Char) (c : Char) :
    decodeDigits (xs ++ [c]) = decodeDigits xs * 10 + (c.toNat - 48) := by
  simp [decodeDigits, List.foldl_append]

/-- Decoding inverts `decChars`. -/
theorem decodeDigits_decChars : ∀ n : Nat, decodeDigits (decChars n) = n := by
  intro n
  induction n using Nat.strong_induction_on with
  | _ n ih =>
    match n with
    | 0 => simp [decChars, decodeDigits]
    | m + 1 =>
      rw [decChars_pos (m + 1) (Nat.succ_ne_zero m), decodeDigits_append,
        ih ((m + 1) / 10) (Nat.div_lt_self (Nat.succ_pos m) (by decide)),
        digitChar_toNat_sub _ (Nat.mod_lt _ (by decide))]
      omega

/-- The fuelled core of `Nat.repr` computes `decChars` once the fuel
suffices. -/
theorem toDigitsCore_decChars :
    ∀ (fuel n : Nat) (ds : List Char), n < fuel →
      Nat.toDigitsCore 10 fuel n ds =
        (if n = 0 then ['0'] else decChars n) ++ ds := by
  intro fuel
  induction fuel with
  | zero => intro n ds h; exact absurd h (Nat.not_lt_zero n)
  | succ fuel ih =>
    intro n ds h
    by_cases hdiv : n / 10 = 0
    · by_cases hn : n = 0
      · subst hn
        simp [Nat.toDigitsCore]
        rfl
      · simp [Nat.toDigitsCore, hdiv, hn, decChars_pos n hn, decChars]
    · have hn : n ≠ 0 := by
        intro h0
        subst h0
        simp at hdiv
      have hlt : n / 10 < fuel := by
        have h1 : n / 10 < n := Nat.div_lt_self (Nat.pos_of_ne_zero hn) (by decide)
        omega
      have hrec := ih (n / 10) (Nat.digitChar (n % 10) :: ds) hlt
      simp [Nat.toDigitsCore, hdiv, hrec, hn, decChars_pos n hn,
        List.append_assoc]

/-- The `Display`/`ToString` rendering of a number, characterised via
`decChars`. -/
theorem natToString_eq (n : Nat) :
    toString n = (if n = 0 then ['0'] else decChars n).asString := by
  show Nat.repr n = _
  unfold Nat.repr Nat.toDigits
  rw [toDigitsCore_decChars (n + 1) n [] (Nat.lt_succ_self n),
    List.append_nil]

/-- Distinct numbers render to distinct strings. -/
theorem natToString_inj {a b : Nat} (h : toString a = toString b) : a = b := by
  rw [natToString_eq, natToString_eq] at h
  have hl : (if a = 0 then ['0'] else decChars a)
      = (if b = 0 then ['0'] else decChars b) := by
    have hd := congrArg String.data h
    simpa [List.asString] using hd
  have key : ∀ n : Nat, decodeDigits (if n = 0 then ['0'] else decChars n) = n := by
    intro n
    by_cases hn : n = 0
    · subst hn; rfl
    · simp [hn, decodeDigits_decChars]
  calc a = decodeDigits (if a = 0 then ['0'] else decChars a) := (key a).symm
    _ = decodeDigits (if b = 0 then ['0'] else decChars b) := by rw [hl]
    _ = b := key b

/-- The synthetic hook callback keys are injective in the counter value. -/
theorem hookKey_inj {a b : Nat} (h : hookKey a = hookKey b) : a = b := by
  unfold hookKey at h
  have hd := congrArg String.data h
  simp only [String.data_append] at hd
  have hdata : (toString a).data = (toString b).data :=
    List.append_cancel_left hd
  exact natToString_inj (String.ext hdata)

/-- A key absent from the first block of an association list is looked up in
the second. -/
theorem lookup_append_of_none {α β : Type} [BEq α] (k : α)
    (l₁ l₂ : List (α × β)) (h : List.lookup k l₁ = none) :
    List.lookup k (l₁ ++ l₂) = List.lookup k l₂ := by
  induction l₁ with
  | nil => rfl
  | cons hd tl ih =>
    obtain ⟨a, b⟩ := hd
    cases hk : k == a with
    | true => simp [List.lookup, hk] at h
    | false =>
      simp only [List.lookup, hk] at h ⊢
      simpa using ih h

/-- Looking up the `i`-th key of a numbered segment hits its entry, provided
the key function is injective. -/
theorem lookup_map_range_hit {α β : Type} [BEq α] [LawfulBEq α] :
    ∀ (len : Nat) (g : Nat → α), (∀ x y, g x = g y → x = y) →
      ∀ (i : Nat) (f : Nat → β), i < len →
        List.lookup (g i) ((List.range len).map fun idx => (g idx, f idx))
          = some (f i) := by
  intro len
  induction len with
  | zero => intro g _ i f h; exact absurd h (Nat.not_lt_zero i)
  | succ len ih =>
    intro g hg i f h
    rw [List.range_succ_eq_map, List.map_cons, List.map_map]
    cases i with
    | zero => simp [List.lookup]
    | succ j =>
      have hne : (g (j + 1) == g 0) = false := by
        apply beq_eq_false_iff_ne.mpr
        intro hk
        exact absurd (hg _ _ hk) (Nat.succ_ne_zero j)
      have := ih (fun x => g (x + 1))
        (fun x y hxy => Nat.succ_injective (hg _ _ hxy)) j (fun x => f (x + 1))
        (Nat.lt_of_succ_lt_succ h)
      simpa [List.lookup, hne, Function.comp] using this

/-- Looking up a key outside a numbered segment misses. -/
theorem lookup_map_range_miss {α β : Type} [BEq α] [LawfulBEq α] (k : α) :
    ∀ (len : Nat) (g : Nat → α), (∀ i, i < len → k ≠ g i) →
      ∀ (f : Nat → β),
        List.lookup k ((List.range len).map fun idx => (g idx, f idx))
          = none := by
  intro len
  induction len with
  | zero => intro g _ f; rfl
  | succ len ih =>
    intro g hk f
    rw [List.range_succ_eq_map, List.map_cons, List.map_map]
    have hne : (k == g 0) = false :=
      beq_eq_false_iff_ne.mpr (hk 0 (Nat.succ_pos len))
    have := ih (fun x => g (x + 1))
      (fun i hi => hk (i + 1) (Nat.succ_lt_succ hi)) (fun x => f (x + 1))
    simpa [List.lookup, hne, Function.comp] using this

/-- A key found in the first block of an association list stays found after
appending. -/
theorem lookup_append_of_some {α β : Type} [BEq α] (k : α) (v : β)
    (l₁ l₂ : List (α × β)) (h : List.lookup k l₁ = some v) :
    List.lookup k (l₁ ++ l₂) = some v := by
  induction l₁ with
  | nil => simp [List.lookup] at h
  | cons hd tl ih =>
    obtain ⟨a, b⟩ := hd
    cases hk : k == a with
    | true =>
      simp only [List.lookup, hk] at h ⊢
      exact h
    | false =>
      simp only [List.lookup, hk] at h ⊢
      simpa using ih h

/-- Matcher entries advertise exactly their one callback id each. -/
theorem flatMap_matcherEntryIds {γ : Type} (k : Nat × (Option String × γ) → String) :
    ∀ l : List (Nat × (Option String × γ)),
      ((l.map fun it => Json.obj
        [("matcher", optStrJson it.2.1),
         ("callbackIds", Json.arr [.str (k it)])]).flatMap matcherEntryIds)
        = l.map fun it => k it := by
  intro l
  induction l with
  | nil => rfl
  | cons x xs ih => simp [matcherEntryIds, List.lookup, ih, Json.asStr]

/-- Plain string arrays advertise exactly their elements. -/
theorem filterMap_asStr_map_str {γ : Type} (g : γ → String) :
    ∀ l : List γ,
      ((l.map fun i => Json.str (g i)).filterMap Json.asStr) = l.map g := by
  intro l
  induction l with
  | nil => rfl
  | cons x xs ih => simp [Json.asStr, ih]

/-- Mapping a function of the index over an enumeration is mapping it over
the index range. -/
theorem enum_map_key {γ β : Type} (l : List γ) (g : Nat → β) :
    (l.enum.map fun it => g it.1) = (List.range l.length).map g := by
  rw [← List.enum_map_fst l, List.map_map]
  rfl

/-- Specialisation of `enum_map_key` to offset hook keys (stated so its
left-hand side is a first-order match for `simp`). -/
theorem enum_map_hookKey_add {γ : Type} (l : List γ) (base : Nat) :
    (l.enum.map fun it => hookKey (base + it.1))
      = (List.range l.length).map fun i => hookKey (base + i) :=
  enum_map_key l fun i => hookKey (base + i)

/-- Composed form of `filterMap_asStr_map_str` (the shape left after
`List.filterMap_map` fires). -/
theorem filterMap_asStr_comp_str {γ : Type} (g : γ → String) (l : List γ) :
    l.filterMap (Json.asStr ∘ fun i => Json.str (g i)) = l.map g := by
  induction l with
  | nil => rfl
  | cons x xs ih => simp [Json.asStr, ih, Function.comp]

/-- Projecting the key out of a numbered segment. -/
theorem map_fst_comp_pair {β γ : Type} (f : Nat → β) (g : Nat → γ)
    (l : List Nat) :
    l.map (Prod.fst ∘ fun idx => (f idx, g idx)) = l.map f := by
  induction l with
  | nil => rfl
  | cons x xs ih => simp [ih, Function.comp]

/-- C3: the synthetic callback-id assignment flattens the four hook lists in
the fixed order (pre, post, prompt-submit, stop) numbering sequentially
from zero, so with counts (p, q, r, s) the key `hook_{idx}` resolves to pre
index `idx`, `hook_{p+idx}` to post index `idx`, `hook_{p+q+idx}` to
prompt-submit index `idx` and `hook_{p+q+r+idx}` to stop index `idx`; and
the ids advertised to the child in the Initialize request are exactly the
keys of the dispatch map, in the same order. -/
theorem C3_hook_callback_id_arithmetic (h : Hooks) :
    (∀ idx, idx < h.preToolUse.length →
      (buildHookCallbacks (some h)).lookup (hookKey idx)
        = some (.preToolUse idx)) ∧
    (∀ idx, idx < h.postToolUse.length →
      (buildHookCallbacks (some h)).lookup
          (hookKey (h.preToolUse.length + idx)) = some (.postToolUse idx)) ∧
    (∀ idx, idx < h.userPromptSubmit.length →
      (buildHookCallbacks (some h)).lookup
          (hookKey (h.preToolUse.length + h.postToolUse.length + idx))
        = some (.userPromptSubmit idx)) ∧
    (∀ idx, idx < h.stop.length →
      (buildHookCallbacks (some h)).lookup
          (hookKey (h.preToolUse.length + h.postToolUse.length
            + h.userPromptSubmit.length + idx)) = some (.stop idx)) ∧
    advertisedCallbackIds (buildHookCallbackIds (some h))
      = (buildHookCallbacks (some h)).map Prod.fst := by
  refine ⟨?_, ?_, ?_, ?_, ?_⟩
  · intro idx hidx
    have hit : List.lookup (hookKey idx)
        ((List.range h.preToolUse.length).map fun i =>
          (hookKey i, HookCallbackEntry.preToolUse i))
        = some (.preToolUse idx) :=
      lookup_map_range_hit h.preToolUse.length hookKey
        (fun _ _ hk => hookKey_inj hk) idx _ hidx
    simp only [buildHookCallbacks]
    exact lookup_append_of_some _ _ _ _
      (lookup_append_of_some _ _ _ _ (lookup_append_of_some _ _ _ _ hit))
  · intro idx hidx
    have m1 : List.lookup (hookKey (h.preToolUse.length + idx))
        ((List.range h.preToolUse.length).map fun i =>
          (hookKey i, HookCallbackEntry.preToolUse i)) = none :=
      lookup_map_range_miss _ h.preToolUse.length hookKey
        (fun i hi heq => by have := hookKey_inj heq; omega) _
    have hit : List.lookup (hookKey (h.preToolUse.length + idx))
        ((List.range h.postToolUse.length).map fun i =>
          (hookKey (h.preToolUse.length + i), HookCallbackEntry.postToolUse i))
        = some (.postToolUse idx) :=
      lookup_map_range_hit h.postToolUse.length
        (fun i => hookKey (h.preToolUse.length + i))
        (fun _ _ hk => by have := hookKey_inj hk; omega) idx _ hidx
    simp only [buildHookCallbacks]
    refine lookup_append_of_some _ _ _ _
      (lookup_append_of_some _ _ _ _ ?_)
    rw [lookup_append_of_none _ _ _ m1]
    exact hit
  · intro idx hidx
    have m1 : List.lookup
        (hookKey (h.preToolUse.length + h.postToolUse.length + idx))
        ((List.range h.preToolUse.length).map fun i =>
          (hookKey i, HookCallbackEntry.preToolUse i)) = none :=
      lookup_map_range_miss _ h.preToolUse.length hookKey
        (fun i hi heq => by have := hookKey_inj heq; omega) _
    have m2 : List.lookup
        (hookKey (h.preToolUse.length + h.postToolUse.length + idx))
        ((List.range h.postToolUse.length).map fun i =>
          (hookKey (h.preToolUse.length + i), HookCallbackEntry.postToolUse i))
        = none :=
      lookup_map_range_miss _ h.postToolUse.length _
        (fun i hi heq => by have := hookKey_inj heq; omega) _
    have hit : List.lookup
        (hookKey (h.preToolUse.length + h.postToolUse.length + idx))
        ((List.range h.userPromptSubmit.length).map fun i =>
          (hookKey (h.preToolUse.length + h.postToolUse.length + i),
           HookCallbackEntry.userPromptSubmit i))
        = some (.userPromptSubmit idx) :=
      lookup_map_range_hit h.userPromptSubmit.length
        (fun i => hookKey (h.preToolUse.length + h.postToolUse.length + i))
        (fun _ _ hk => by have := hookKey_inj hk; omega) idx _ hidx
    simp only [buildHookCallbacks]
    refine lookup_append_of_some _ _ _ _ ?_
    rw [lookup_append_of_none _ _ _ (by rw [lookup_append_of_none _ _ _ m1]; exact m2)]
    exact hit
  · intro idx hidx
    have m1 : List.lookup
        (hookKey (h.preToolUse.length + h.postToolUse.length
          + h.userPromptSubmit.length + idx))
        ((List.range h.preToolUse.length).map fun i =>
          (hookKey i, HookCallbackEntry.preToolUse i)) = none :=
      lookup_map_range_miss _ h.preToolUse.length hookKey
        (fun i hi heq => by have := hookKey_inj heq; omega) _
    have m2 : List.lookup
        (hookKey (h.preToolUse.length + h.postToolUse.length
          + h.userPromptSubmit.length + idx))
        ((List.range h.postToolUse.length).map fun i =>
          (hookKey (h.preToolUse.length + i), HookCallbackEntry.postToolUse i))
        = none :=
      lookup_map_range_miss _ h.postToolUse.length _
        (fun i hi heq => by have := hookKey_inj heq; omega) _
    have m3 : List.lookup
        (hookKey (h.preToolUse.length + h.postToolUse.length
          + h.userPromptSubmit.length + idx))
        ((List.range h.userPromptSubmit.length).map fun i =>
          (hookKey (h.preToolUse.length + h.postToolUse.length + i),
           HookCallbackEntry.userPromptSubmit i))
        = none :=
      lookup_map_range_miss _ h.userPromptSubmit.length _
        (fun i hi heq => by have := hookKey_inj heq; omega) _
    have hit : List.lookup
        (hookKey (h.preToolUse.length + h.postToolUse.length
          + h.userPromptSubmit.length + idx))
        ((List.range h.stop.length).map fun i =>
          (hookKey (h.preToolUse.length + h.postToolUse.length
            + h.userPromptSubmit.length + i), HookCallbackEntry.stop i))
        = some (.stop idx) :=
      lookup_map_range_hit h.stop.length
        (fun i => hookKey (h.preToolUse.length + h.postToolUse.length
          + h.userPromptSubmit.length + i))
        (fun _ _ hk => by have := hookKey_inj hk; omega) idx _ hidx
    simp only [buildHookCallbacks]
    rw [lookup_append_of_none _ _ _ (by
      rw [lookup_append_of_none _ _ _ (by
        rw [lookup_append_of_none _ _ _ m1]; exact m2)]
      exact m3)]
    exact hit
  · simp only [advertisedCallbackIds, advertisedMatcherIds, advertisedPlainIds,
      buildHookCallbackIds, buildHookCallbacks]
    split_ifs with hp hq hr hs <;>
      simp_all [Json.get, List.lookup, flatMap_matcherEntryIds,
        filterMap_asStr_map_str, filterMap_asStr_comp_str, enum_map_key,
        enum_map_hookKey_add, map_fst_comp_pair, List.map_append,
        List.map_map]

/-- C3 witness: with one hook of each kind (p = q = r = s = 1) the four
keys `hook_0` … `hook_3` resolve to pre 0, post 0, prompt-submit 0 and
stop 0, and the advertised ids equal the dispatch map's keys. -/
theorem C3_witness :
    (buildHookCallbacks (some sampleHooks)).lookup (hookKey 0)
      = some (.preToolUse 0) ∧
    (buildHookCallbacks (some sampleHooks)).lookup (hookKey 1)
      = some (.postToolUse 0) ∧
    (buildHookCallbacks (some sampleHooks)).lookup (hookKey 2)
      = some (.userPromptSubmit 0) ∧
    (buildHookCallbacks (some sampleHooks)).lookup (hookKey 3)
      = some (.stop 0) ∧
    advertisedCallbackIds (buildHookCallbackIds (some sampleHooks))
      = (buildHookCallbacks (some sampleHooks)).map Prod.fst :=
  ⟨(C3_hook_callback_id_arithmetic sampleHooks).1 0 (by decide),
   (C3_hook_callback_id_arithmetic sampleHooks).2.1 0 (by decide),
   (C3_hook_callback_id_arithmetic sampleHooks).2.2.1 0 (by decide),
   (C3_hook_callback_id_arithmetic sampleHooks).2.2.2.1 0 (by decide),
   (C3_hook_callback_id_arithmetic sampleHooks).2.2.2.2⟩

end Clauders
